import Mathlib

/-!
Shallow embedding of the possession-simulation core of the repository
(`src/player_enhancer.py` and `src/basketball_sim.py`), with theorems checking
the specification's claims about it.  Stats are rationals, Python's `random`
module is an oracle of two explicit streams (one for `random.random()`, one
for `random.choice`), and fallible Python code returns `Except`/`Option`.
-/

namespace BBall

deriving instance DecidableEq for Except

/-- One entry of the game log: Python's `{"type": kind, "text": text}`. -/
structure Event where
  kind : String
  text : String
deriving DecidableEq, Repr

/-- A Python dict with string keys: an insertion-ordered association list,
where `set` overwrites the entry of an existing key in place. -/
abbrev PyDict (α : Type) : Type := List (String × α)

def PyDict.empty {α : Type} : PyDict α := []

def PyDict.get? {α : Type} : PyDict α → String → Option α
  | [], _ => none
  | (k, v) :: rest, key => if k = key then some v else PyDict.get? rest key

def PyDict.getD {α : Type} (d : PyDict α) (key : String) (dflt : α) : α :=
  (d.get? key).getD dflt

def PyDict.set {α : Type} : PyDict α → String → α → PyDict α
  | [], key, v => [(key, v)]
  | (k, w) :: rest, key, v =>
      if k = key then (k, v) :: rest else (k, w) :: PyDict.set rest key v

def PyDict.values {α : Type} (d : PyDict α) : List α := d.map Prod.snd

/-- Python's `d[key] += v`.  In the simulator the key is always present (both
player names are inserted at initialization), so the KeyError branch of the
Python subscript is unreachable and the lookup is modelled with default 0. -/
def PyDict.addTo {α : Type} [Zero α] [Add α] (d : PyDict α) (key : String) (v : α) : PyDict α :=
  d.set key (d.getD key 0 + v)

/-- The `random` module as an oracle: `rand n` is the n-th value returned by
`random.random()` (a rational in `[0,1)`), `choice n` drives the n-th
`random.choice` call; the indices count calls in program order. -/
structure RState where
  rand : ℕ → ℚ
  choice : ℕ → ℕ
  randIdx : ℕ
  choiceIdx : ℕ

def RState.nextRand (s : RState) : ℚ × RState :=
  (s.rand s.randIdx, { s with randIdx := s.randIdx + 1 })

/-- `random.choice` from a non-empty list (the raw oracle value is taken modulo
the length, so the default of `getD` is never reached). -/
def pyChoice {α : Type} (l : List α) (dflt : α) (s : RState) : α × RState :=
  (l.getD (s.choice s.choiceIdx % l.length) dflt, { s with choiceIdx := s.choiceIdx + 1 })

/-- A raw player profile: the open-ended Python stat dictionary restricted to the
keys the core reads.  Field ↔ dict key: `fg_pct` = 'Field Goal Percentage (FG%)',
`tp_pct` = 'Three-Point Percentage (3P%)', `ft_pct` = 'Free Throw Percentage (FT%)',
`ts_pct` = 'True Shooting Percentage (TS%)', `mpg` = 'Average Minutes Per Game (MPG)',
`spg` = 'Steals Per Game (SPG)', `bpg` = 'Blocks Per Game (BPG)',
`tov` = 'Turnovers Per Game (TOV)'; the rest are the identically named keys.
`none` means the key is absent from the dict. -/
structure RawPlayer where
  name : String
  position : Option String := none
  points : Option ℚ := none
  rebounds : Option ℚ := none
  assists : Option ℚ := none
  fg_pct : Option ℚ := none
  tp_pct : Option ℚ := none
  ft_pct : Option ℚ := none
  ts_pct : Option ℚ := none
  mpg : Option ℚ := none
  spg : Option ℚ := none
  bpg : Option ℚ := none
  tov : Option ℚ := none
  height : Option String := none
deriving DecidableEq, Repr

/-- Contiguous-sublist test, used to model Python's `in` on strings. -/
def subListOf (needle : List Char) : List Char → Bool
  | [] => needle.isEmpty
  | c :: cs => needle.isPrefixOf (c :: cs) || subListOf needle cs

/-- Python's `needle in haystack` on strings (substring containment). -/
def pyIn (needle haystack : String) : Bool :=
  subListOf needle.toList haystack.toList

/-- A profile after `enhance_player_data`: the raw keys plus the derived ones. -/
structure Enhanced where
  raw : RawPlayer
  scoring_efficiency : ℚ
  usage_rate : ℚ
  estimated_steals : ℚ
  estimated_blocks : ℚ
  offensive_rebounds : ℚ
  defensive_rebounds : ℚ
  stamina : ℚ
  clutch_rating : ℚ
  three_point_tendency : ℚ
  defensive_impact : ℚ
deriving DecidableEq, Repr

/-- `enhance_player_data` (player_enhancer.py, lines 8-87).  It copies the dict
and adds the derived keys, so the raw fields are carried over unchanged. -/
def enhance_player_data (player : RawPlayer) : Enhanced :=
  let scoring_efficiency :=
    player.fg_pct.getD 45 * (5/10) + player.tp_pct.getD 33 * (3/10) + player.ft_pct.getD 75 * (2/10)
  let usage_rate := min 100 (player.points.getD 10 * 2 + player.assists.getD 3 * (15/10))
  let position := player.position.getD "SF"
  let big := pyIn "C" position || pyIn "PF" position
  let guard := pyIn "PG" position || pyIn "SG" position
  let estimated_blocks : ℚ :=
    if big then (12/10) + player.rebounds.getD 5 * (1/10) else if guard then (3/10) else (7/10)
  let estimated_steals : ℚ :=
    if big then (8/10) else if guard then (12/10) + player.assists.getD 3 * (1/10) else (1 : ℚ)
  let offensive_rebounds : ℚ :=
    if big then player.rebounds.getD 5 * (35/100)
    else if guard then player.rebounds.getD 3 * (2/10)
    else player.rebounds.getD 4 * (25/100)
  let defensive_rebounds : ℚ :=
    if big then player.rebounds.getD 5 * (65/100)
    else if guard then player.rebounds.getD 3 * (8/10)
    else player.rebounds.getD 4 * (75/100)
  let stamina : ℚ := (9/10) + player.mpg.getD 25 / 40 * (2/10)
  let clutch_rating : ℚ := (player.ft_pct.getD 75 * (6/10) + player.ts_pct.getD 55 * (4/10)) / 100
  let fg_pct := player.fg_pct.getD 45
  let tp_pct := player.tp_pct.getD 33
  let three_point_tendency : ℚ :=
    if fg_pct - tp_pct < 8 then (6/10) else if fg_pct - tp_pct < 15 then (4/10) else (2/10)
  let defensive_impact : ℚ :=
    (player.rebounds.getD 5 * (5/10) + estimated_blocks * 2 + estimated_steals * (15/10)) / 10
  { raw := player
    scoring_efficiency := scoring_efficiency
    usage_rate := usage_rate
    estimated_steals := estimated_steals
    estimated_blocks := estimated_blocks
    offensive_rebounds := offensive_rebounds
    defensive_rebounds := defensive_rebounds
    stamina := stamina
    clutch_rating := clutch_rating
    three_point_tendency := three_point_tendency
    defensive_impact := defensive_impact }

/-- Python `str.split` on a single separator character (always non-empty). -/
def pySplit (sep : Char) : List Char → List (List Char)
  | [] => [[]]
  | c :: cs =>
    match pySplit sep cs with
    | [] => [[]]
    | p :: ps => if c = sep then [] :: p :: ps else (c :: p) :: ps

/-- Python `int()` on the digit runs that this repository's height fields hold
(`int()` also accepts signs and surrounding blanks; heights here are plain
digit runs, so the digit-only reading is what every reachable call sees). -/
def parseDigits (cs : List Char) : Option ℤ :=
  if cs ≠ [] ∧ cs.all Char.isDigit then
    some (cs.foldl (fun a c => a * 10 + ((c.toNat : ℤ) - 48)) 0)
  else none

/-- Height parsing of `_calculate_derived_stats` (basketball_sim.py lines 49-51):
strip every double quote, split on the apostrophe, unpack into feet and inches
(exactly two parts, else Python's unpacking ValueError), convert with `int`;
an empty inch part keeps `feet * 12`.  `none` is the raised ValueError. -/
def parseHeight (s : String) : Option ℤ :=
  let cleaned := s.toList.filter (fun c => c ≠ '\"')
  match pySplit '\'' cleaned with
  | [feet, inches] =>
    match parseDigits feet with
    | none => none
    | some f =>
      if inches = [] then some (f * 12)
      else
        match parseDigits inches with
        | none => none
        | some i => some (f * 12 + i)
  | _ => none

/-- A profile after `_calculate_derived_stats` (lines 45-72): the enhanced keys
plus `height_inches`, `offensive_rating`, `defensive_rating`, and the SPG/BPG/TOV
keys filled with their defaults when absent. -/
structure Player where
  enh : Enhanced
  height_inches : ℤ
  offensive_rating : ℚ
  defensive_rating : ℚ
deriving DecidableEq, Repr

def Player.name (p : Player) : String := p.enh.raw.name

/-- `_calculate_derived_stats` for one player (lines 45-72).  The `.error` is
the ValueError Python raises while unpacking or converting a malformed height
string; a missing height key defaults to `6'0"`. -/
def calculate_derived_stats (e : Enhanced) : Except String Player :=
  match parseHeight (e.raw.height.getD "6'0\"") with
  | none => .error "ValueError: malformed height string"
  | some height_inches =>
    let offensive_rating :=
      e.raw.points.getD 10 * (3/10) + e.scoring_efficiency * (4/10) + e.usage_rate * (3/10)
    let defensive_rating := e.defensive_impact * (6/10) + (height_inches : ℚ) / 84 * 40
    let raw := { e.raw with
      spg := some (e.raw.spg.getD e.estimated_steals)
      bpg := some (e.raw.bpg.getD e.estimated_blocks)
      tov := some (e.raw.tov.getD (2 : ℚ)) }
    .ok { enh := { e with raw := raw }
          height_inches := height_inches
          offensive_rating := offensive_rating
          defensive_rating := defensive_rating }

/-- The simulator's per-match configuration, as set up by
`BasketballSimulator.__init__` (lines 19-43). -/
structure Sim where
  player1 : Player
  player2 : Player
  target_score : ℕ
  make_it_take_it : Bool
deriving Repr

/-- `BasketballSimulator(player1, player2, target_score, make_it_take_it)`:
enhancement and `_calculate_derived_stats` for both players (player1 first);
`.error` is the exception that aborts construction. -/
def mkSimulator (player1 player2 : RawPlayer) (target_score : ℕ)
    (make_it_take_it : Bool) : Except String Sim :=
  match calculate_derived_stats (enhance_player_data player1) with
  | .error e => .error e
  | .ok q1 =>
    match calculate_derived_stats (enhance_player_data player2) with
    | .error e => .error e
    | .ok q2 => .ok ⟨q1, q2, target_score, make_it_take_it⟩

/-- `_get_shot_success_probability` (lines 87-129).  All the derived keys it
reads with defaults are present after enhancement, so the defaults written in
the Python `get` calls are never substituted. -/
def get_shot_success_probability (offensive_player defensive_player : Player)
    (shot_type : String) : ℚ :=
  let base_probability :=
    if shot_type = "inside" then
      let base := offensive_player.enh.raw.fg_pct.getD 45 / 100
      let height_factor : ℚ :=
        1 + ((offensive_player.height_inches : ℚ) - (defensive_player.height_inches : ℚ)) / 100
      base * height_factor
    else
      offensive_player.enh.raw.tp_pct.getD 33 / 100 +
        offensive_player.enh.three_point_tendency * (1/10)
  let rating_factor : ℚ :=
    1 + (offensive_player.offensive_rating - defensive_player.defensive_rating) / 200
  let defense_impact : ℚ :=
    if shot_type = "inside" then defensive_player.enh.estimated_blocks * (5/100)
    else defensive_player.enh.estimated_steals * (3/100)
  max (1/10) (min (9/10) (base_probability * rating_factor - defense_impact))

/-- The inside-shot phrase pool of `_generate_shot_description` (lines 271-281). -/
def inside_moves : List String :=
  ["drives to the basket", "makes a quick move to the hoop", "backs down in the post",
   "spins into the lane", "cuts to the basket", "goes up strong", "attempts a layup",
   "tries a floater", "goes for a post move"]

/-- The outside-shot phrase pool (lines 283-290). -/
def outside_moves : List String :=
  ["pulls up for a deep shot", "steps back for a jumper", "creates space for a jump shot",
   "rises up for the long-range shot", "attempts a perimeter shot", "goes for a fadeaway jumper"]

/-- The defensive-context phrase pool (lines 300-305), built around the defender. -/
def defensive_actions (defender : String) : List String :=
  ["with " ++ defender ++ " contesting", "against tight defense from " ++ defender,
   "with " ++ defender ++ " right there", "over " ++ defender]

/-- The made-shot phrase pool (lines 310-317). -/
def success_phrases : List String :=
  ["... and it's good!", "... it drops in!", "... nothing but net!", "... count it!",
   "... and scores!", "... and converts!"]

/-- The missed-shot phrase pool (lines 320-326). -/
def miss_phrases : List String :=
  ["... but misses!", "... off the rim!", "... but it's no good!", "... but can't connect!",
   "... but it rims out!"]

/-- `_generate_shot_description` (lines 268-329): a move drawn from the pool for
the shot type, a 70% chance of naming the defender, then a result phrase. -/
def generate_shot_description (offensive_player defensive_player : Player)
    (shot_type : String) (successful : Bool) (s : RState) : String × RState :=
  let mv := pyChoice (if shot_type = "inside" then inside_moves else outside_moves) "" s
  let description := offensive_player.name ++ " " ++ mv.1
  let nr := mv.2.nextRand
  let withDefense :=
    if nr.1 < (7/10) then
      let act := pyChoice (defensive_actions defensive_player.name) "" nr.2
      (description ++ " " ++ act.1, act.2)
    else (description, nr.2)
  let ph := pyChoice (if successful then success_phrases else miss_phrases) "" withDefense.2
  (withDefense.1 ++ " " ++ ph.1, ph.2)

/-- The mutable match state owned by one `simulate_full_game` call. -/
structure GState where
  score : PyDict ℕ
  fatigue : PyDict ℚ
  possession : Player
  game_log : List Event
  winner : Option Player
  possession_count : ℕ
  rng : RState

def GState.logEvent (st : GState) (kind text : String) : GState :=
  { st with game_log := st.game_log ++ [⟨kind, text⟩] }

def GState.drawRand (st : GState) : ℚ × GState :=
  ((st.rng.nextRand).1, { st with rng := (st.rng.nextRand).2 })

/-- The fatigue increments of lines 443-445: offense +0.5, defense +0.3
(`fatigue[name] += v` on the name-keyed fatigue dict). -/
def GState.addFatigue (st : GState) (offensive_player defensive_player : Player) : GState :=
  let f := st.fatigue.addTo offensive_player.name (5/10)
  { st with fatigue := f.addTo defensive_player.name (3/10) }

/-- `self.player2 if p == self.player1 else self.player1` (Python compares the
whole profile dicts for equality). -/
def otherOf (sim : Sim) (p : Player) : Player :=
  if p = sim.player1 then sim.player2 else sim.player1

/-- The shot-type odds of lines 393-401: base 0.7 for an inside shot, 0.5 for
the positions PG/SG/SF, minus (1/10) when the three-point percentage (default
30.0) exceeds 35. -/
def shotTypeOddsOf (pos : String) (three_pt_pct : ℚ) : ℚ :=
  let odds : ℚ := if pos = "PG" ∨ pos = "SG" ∨ pos = "SF" then (5/10) else (7/10)
  if three_pt_pct > 35 then odds - (1/10) else odds

/-- Line 403: `'inside' if random.random() < shot_type_odds else 'outside'`. -/
def shotTypeSel (shot_type_odds r : ℚ) : String :=
  if r < shot_type_odds then "inside" else "outside"

/-- Lines 417-436 of the loop body plus the fatigue increments of 443-445: a
made shot — award 1 or 2 points, log the shot, set the winner and break when
the target is reached (skipping the fatigue increments), else resolve the next
possession by the make-it-take-it rule and add fatigue. -/
def madeShot (sim : Sim) (offensive_player defensive_player : Player)
    (shot_type shot_description : String) (st : GState) : GState :=
  let points : ℕ := if shot_type = "inside" then 1 else 2
  let st1 : GState := { st with score := st.score.addTo offensive_player.name points }
  let shot_text := shot_description ++ " " ++ offensive_player.name ++ " scores! " ++
    "Score: " ++ offensive_player.name ++ " " ++
    toString (st1.score.getD offensive_player.name 0) ++ ", " ++
    defensive_player.name ++ " " ++
    toString (st1.score.getD defensive_player.name 0) ++ "."
  let st2 : GState := st1.logEvent "shot_made" shot_text
  if sim.target_score ≤ st2.score.getD offensive_player.name 0 then
    { st2 with winner := some offensive_player }
  else
    let st3 : GState :=
      if sim.make_it_take_it then st2 else { st2 with possession := defensive_player }
    st3.addFatigue offensive_player defensive_player

/-- Lines 437-441 plus the fatigue increments of 443-445: a missed shot — the
defensive player just gets the rebound (stated inside the shot_missed event
text) and the possession. -/
def missedShot (offensive_player defensive_player : Player)
    (shot_description : String) (st : GState) : GState :=
  let st1 : GState := st.logEvent "shot_missed"
    (shot_description ++ " " ++ defensive_player.name ++ " grabs the rebound.")
  let st2 : GState := { st1 with possession := defensive_player }
  st2.addFatigue offensive_player defensive_player

/-- Lines 393-441: shot-type selection, success draw, description, and the
made/missed resolution, entered once the turnover check has passed. -/
def shotPhase (sim : Sim) (offensive_player defensive_player : Player)
    (fatigue_factor : ℚ) (pos : String) (st : GState) : GState :=
  let shot_type_odds := shotTypeOddsOf pos (offensive_player.enh.raw.tp_pct.getD 30)
  let d2 := st.drawRand
  let shot_type := shotTypeSel shot_type_odds d2.1
  let success_prob :=
    get_shot_success_probability offensive_player defensive_player shot_type *
      fatigue_factor
  let d3 := d2.2.drawRand
  let shot_successful := d3.1 < success_prob
  let ds := generate_shot_description offensive_player defensive_player shot_type
    shot_successful d3.2.rng
  let st1 : GState := { d3.2 with rng := ds.2 }
  if shot_successful then madeShot sim offensive_player defensive_player shot_type ds.1 st1
  else missedShot offensive_player defensive_player ds.1 st1

/-- The body of `simulate_full_game`'s while loop (lines 371-445), one
possession.  `.error` is Python's KeyError when the offensive profile has no
'position' key (line 395 indexes the dict directly). -/
def possessionStep (sim : Sim) (st : GState) : Except String GState :=
  let offensive_player := st.possession
  let defensive_player := otherOf sim st.possession
  let st1 : GState := { st with possession_count := st.possession_count + 1 }
  let st2 : GState := st1.logEvent "check_ball"
    (offensive_player.name ++ " checks the ball at the top of the key.")
  let fatigue_factor : ℚ :=
    1 - st2.fatigue.getD offensive_player.name 0 * (1/100) * (1 / offensive_player.enh.stamina)
  let turnover_chance : ℚ := (5/100) + offensive_player.enh.raw.tov.getD (2 : ℚ) / 40
  let d1 := st2.drawRand
  if d1.1 < turnover_chance then
    let st3 : GState := d1.2.logEvent "turnover"
      (offensive_player.name ++ " loses control of the ball! Turnover to " ++
        defensive_player.name ++ ".")
    .ok { st3 with possession := defensive_player }
  else
    match offensive_player.enh.raw.position with
    | none => .error "KeyError: 'position'"
    | some pos =>
      .ok (shotPhase sim offensive_player defensive_player fatigue_factor pos d1.2)

/-- `max(self.score.values())`; the score dict is non-empty by construction, so
folding from 0 over the (non-negative) values is Python's `max`. -/
def maxValues (d : PyDict ℕ) : ℕ := d.values.foldl max 0

/-- The while loop of lines 371-445: fuel counts the possessions left before
the safety cap of 100 is reached, so the guard `possession_count < 100` is the
fuel running out; `break` on a winner. -/
def simLoop (sim : Sim) : ℕ → GState → Except String GState
  | 0, st => .ok st
  | fuel + 1, st =>
    if maxValues st.score < sim.target_score then
      match possessionStep sim st with
      | .error e => .error e
      | .ok st' => if st'.winner.isSome then .ok st' else simLoop sim fuel st'
    else .ok st

/-- Lines 352-365: fresh log, name-keyed score and fatigue dicts (a duplicate
name collapses to a single entry), random first possession, intro event. -/
def initState (sim : Sim) (rng : RState) : GState :=
  let score := (PyDict.empty.set sim.player1.name 0).set sim.player2.name 0
  let pc := pyChoice [sim.player1, sim.player2] sim.player1 rng
  let intro := "Welcome to this 1v1 showdown between " ++ sim.player1.name ++ " and " ++
    sim.player2.name ++ "! " ++ "First to " ++ toString sim.target_score ++
    " points wins, and we're playing " ++
    (if sim.make_it_take_it then "make it, take it" else "alternating possession") ++
    " rules. " ++ (pc.1).name ++ " wins the tip and will start with the ball."
  { score := score
    fatigue := (PyDict.empty.set sim.player1.name 0).set sim.player2.name 0
    possession := pc.1
    game_log := [⟨"intro", intro⟩]
    winner := none
    possession_count := 0
    rng := pc.2 }

/-- `simulate_full_game` up to the conclusion event (lines 350-454), returning
the final match state. -/
def runGame (sim : Sim) (rng : RState) : Except String GState :=
  match simLoop sim 100 (initState sim rng) with
  | .error e => .error e
  | .ok st =>
    match st.winner with
    | some w =>
      let loser := otherOf sim w
      .ok (st.logEvent "conclusion"
        ("Game over! " ++ w.name ++ " wins " ++ toString (st.score.getD w.name 0) ++
          " to " ++ toString (st.score.getD loser.name 0) ++ "!"))
    | none =>
      .ok (st.logEvent "conclusion"
        "The game reached the maximum number of possessions without a winner.")

/-- The dictionary `simulate_full_game` returns (lines 457-463). -/
structure GameResult where
  game_log : List Event
  final_score : PyDict ℕ
  winner : Option String
  player1 : Player
  player2 : Player
deriving DecidableEq, Repr

/-- `simulate_full_game` (lines 350-463). -/
def simulate_full_game (sim : Sim) (rng : RState) : Except String GameResult :=
  match runGame sim rng with
  | .error e => .error e
  | .ok st =>
    .ok { game_log := st.game_log
          final_score := st.score
          winner := st.winner.map Player.name
          player1 := sim.player1
          player2 := sim.player2 }

/-- The module-level `simulate_game` entry point (lines 553-586): construct the
simulator, run the full game.  The optional Gemini commentary is external
narrative glue, caught at its boundary, and changes nothing of the result. -/
def simulate_game (player1_data player2_data : RawPlayer) (target_score : ℕ)
    (make_it_take_it : Bool) (rng : RState) : Except String GameResult :=
  match mkSimulator player1_data player2_data target_score make_it_take_it with
  | .error e => .error e
  | .ok sim => simulate_full_game sim rng

/-- The contested-rebound probability of `_simulate_possession` (basketball_sim.py
lines 235-254): rebound-share ratio (the defensive share weighted by 1.2 for an
outside miss), plus the height advantage over 100, clamped to [(2/10), (8/10)].  The
rebound keys are always present after enhancement, so the Python `get` defaults
(2/5 inside, 1/4 outside) are never substituted. -/
def off_rebound_chance (offensive_player defensive_player : Player)
    (shot_type : String) : ℚ :=
  let base :=
    if shot_type = "inside" then
      offensive_player.enh.offensive_rebounds /
        (offensive_player.enh.offensive_rebounds + defensive_player.enh.defensive_rebounds)
    else
      offensive_player.enh.offensive_rebounds /
        (offensive_player.enh.offensive_rebounds + defensive_player.enh.defensive_rebounds * (12/10))
  let height_advantage : ℚ :=
    ((offensive_player.height_inches : ℚ) - (defensive_player.height_inches : ℚ)) / 100
  max (2/10) (min (8/10) (base + height_advantage))

/-- The missed-shot resolution as claim C2 describes it: the rebound is
contested — the offense retains possession with probability
`off_rebound_chance` (one `random.random()` draw), the winner of the contest
receiving possession. -/
def missedShot_claimed (offensive_player defensive_player : Player)
    (shot_type shot_description : String) (st : GState) : GState :=
  let st1 : GState := st.logEvent "shot_missed"
    (shot_description ++ " " ++ defensive_player.name ++ " grabs the rebound.")
  let dr := st1.drawRand
  let st2 : GState :=
    if dr.1 < off_rebound_chance offensive_player defensive_player shot_type then dr.2
    else { dr.2 with possession := defensive_player }
  st2.addFatigue offensive_player defensive_player

/-- `shotPhase` with the claimed contested rebound in place of the code's
automatic defensive rebound. -/
def shotPhase_claimed (sim : Sim) (offensive_player defensive_player : Player)
    (fatigue_factor : ℚ) (pos : String) (st : GState) : GState :=
  let shot_type_odds := shotTypeOddsOf pos (offensive_player.enh.raw.tp_pct.getD 30)
  let d2 := st.drawRand
  let shot_type := shotTypeSel shot_type_odds d2.1
  let success_prob :=
    get_shot_success_probability offensive_player defensive_player shot_type *
      fatigue_factor
  let d3 := d2.2.drawRand
  let shot_successful := d3.1 < success_prob
  let ds := generate_shot_description offensive_player defensive_player shot_type
    shot_successful d3.2.rng
  let st1 : GState := { d3.2 with rng := ds.2 }
  if shot_successful then madeShot sim offensive_player defensive_player shot_type ds.1 st1
  else missedShot_claimed offensive_player defensive_player shot_type ds.1 st1

/-- The possession body as claim C2 describes it: identical to `possessionStep`
except for the contested rebound after a miss. -/
def possessionStep_claimed (sim : Sim) (st : GState) : Except String GState :=
  let offensive_player := st.possession
  let defensive_player := otherOf sim st.possession
  let st1 : GState := { st with possession_count := st.possession_count + 1 }
  let st2 : GState := st1.logEvent "check_ball"
    (offensive_player.name ++ " checks the ball at the top of the key.")
  let fatigue_factor : ℚ :=
    1 - st2.fatigue.getD offensive_player.name 0 * (1/100) * (1 / offensive_player.enh.stamina)
  let turnover_chance : ℚ := (5/100) + offensive_player.enh.raw.tov.getD (2 : ℚ) / 40
  let d1 := st2.drawRand
  if d1.1 < turnover_chance then
    let st3 : GState := d1.2.logEvent "turnover"
      (offensive_player.name ++ " loses control of the ball! Turnover to " ++
        defensive_player.name ++ ".")
    .ok { st3 with possession := defensive_player }
  else
    match offensive_player.enh.raw.position with
    | none => .error "KeyError: 'position'"
    | some pos =>
      .ok (shotPhase_claimed sim offensive_player defensive_player fatigue_factor pos d1.2)

/-- The shot-type rule as claim C3 states it: an outside shot with probability
equal to the offense's derived `three_point_tendency`. -/
def shot_type_claimed (p : Player) (r : ℚ) : String :=
  if r < p.enh.three_point_tendency then "outside" else "inside"

/-! Concrete inputs and observation helpers used by witnesses and
counterexamples. -/

/-- A concrete random oracle: `random.random()` returns the n-th entry of `l`
(1/2 past the end) and every `random.choice` picks index 0. -/
def listRng (l : List ℚ) : RState := ⟨fun n => l.getD n (1/2), fun _ => 0, 0, 0⟩

/-- Enhancement plus derived stats for a concrete profile whose height parses
(the fallback branch is never reached for the profiles below). -/
def playerOf (r : RawPlayer) : Player :=
  match calculate_derived_stats (enhance_player_data r) with
  | .ok p => p
  | .error _ => ⟨enhance_player_data r, 72, 0, 0⟩

def rawAlice : RawPlayer := { name := "Alice", position := some "SF" }

def rawBob : RawPlayer := { name := "Bob", position := some "SF" }

/-- A center whose three-point percentage sits close to his field-goal
percentage: `three_point_tendency` 0.6, in-loop shot-type odds 0.6. -/
def rawCarl : RawPlayer := { name := "Carl", position := some "C", tp_pct := some 40 }

/-- A profile supplying only a name: every other stat, the height and the
position are absent. -/
def rawAnn : RawPlayer := { name := "Ann" }

def rawZed1 : RawPlayer := { name := "Zed", position := some "SF", points := some 30 }

def rawZed2 : RawPlayer := { name := "Zed", position := some "SF", points := some 5 }

def simAliceBob (target_score : ℕ) : Sim :=
  ⟨playerOf rawAlice, playerOf rawBob, target_score, true⟩

def simCarlBob : Sim := ⟨playerOf rawCarl, playerOf rawBob, 11, true⟩

def runCount (sim : Sim) (rng : RState) : Except String ℕ :=
  (runGame sim rng).map GState.possession_count

def runWinner (sim : Sim) (rng : RState) : Except String (Option String) :=
  (runGame sim rng).map (fun st => st.winner.map Player.name)

def runScore (sim : Sim) (rng : RState) (k : String) : Except String ℕ :=
  (runGame sim rng).map (fun st => st.score.getD k 0)

def runFatigue (sim : Sim) (rng : RState) (k : String) : Except String ℚ :=
  (runGame sim rng).map (fun st => st.fatigue.getD k 0)

def runLastEvent (sim : Sim) (rng : RState) : Except String (Option Event) :=
  (runGame sim rng).map (fun st => st.game_log.getLast?)

def stepPossessionName (sim : Sim) (st : GState) : Except String String :=
  (possessionStep sim st).map (fun s => s.possession.name)

def stepPossessionNameClaimed (sim : Sim) (st : GState) : Except String String :=
  (possessionStep_claimed sim st).map (fun s => s.possession.name)

def stepLastKind (sim : Sim) (st : GState) : Except String (Option String) :=
  (possessionStep sim st).map (fun s => s.game_log.getLast?.map Event.kind)

def stepScore (sim : Sim) (st : GState) (k : String) : Except String ℕ :=
  (possessionStep sim st).map (fun s => s.score.getD k 0)

def stepFatigue (sim : Sim) (st : GState) (k : String) : Except String ℚ :=
  (possessionStep sim st).map (fun s => s.fatigue.getD k 0)

/-! Concrete random streams for the witnesses and counterexamples (the
`choice` stream is constantly 0: player1 wins the tip, first phrase picked). -/

/-- No turnover (draw 1/2 at chance 0.1), inside shot (2/5 below the odds),
made (draw 0). -/
def rngWin : RState := listRng [1/2, 2/5, 0]

/-- No turnover, inside shot, missed (draw 9/10 above every clamped success
probability); the trailing 0 is the rebound-contest draw that only the claimed
variant of the miss branch consumes. -/
def rngMiss : RState := listRng [1/2, 2/5, 9/10, 1/2, 0]

/-- A turnover in the first possession (draw 0), then a made inside shot. -/
def rngTurnover : RState := listRng [0, 1/2, 2/5, 0]

/-- The final state of the target-1 Alice/Bob game under `rngWin` (the error
branch is unreachable: both profiles carry a position). -/
def stWin : GState :=
  match runGame (simAliceBob 1) rngWin with
  | .ok st => st
  | .error _ => initState (simAliceBob 1) rngWin

def stMissBase : GState := initState (simAliceBob 11) rngMiss

def stMiss : GState :=
  match possessionStep (simAliceBob 11) stMissBase with
  | .ok s => s
  | .error _ => stMissBase

def rngCarl : RState := listRng [1/2, 1/2, 0]

def rawPat : RawPlayer := { name := "Pat", position := some "PG" }

def rawQuinn : RawPlayer := { name := "Quinn", position := some "C" }

def rawSam : RawPlayer := { name := "Sam", height := some "six foot one" }

/-- The event-kind vocabulary simulate_full_game can emit. -/
def eventKinds : List String :=
  ["intro", "check_ball", "turnover", "shot_made", "shot_missed", "conclusion"]

def resultWin : GameResult :=
  match simulate_game rawAlice rawBob 1 true rngWin with
  | .ok r => r
  | .error _ => ⟨[], [], none, playerOf rawAlice, playerOf rawBob⟩

/-! Case analysis of the loop body: what one possession can do to the state,
relative to a baseline state `st` (with offense `o` and defense `d`). -/

/-- The observable effect of the shot phase on the match state. -/
def StepShape (st x : GState) (sim : Sim) (o d : Player) : Prop :=
  x.possession_count = st.possession_count ∧
  (∃ ev : Event, x.game_log = st.game_log ++ [ev] ∧
    ((∃ pts : ℕ, (pts = 1 ∨ pts = 2) ∧ ev.kind = "shot_made" ∧
        x.score = st.score.addTo o.name pts ∧
        ((sim.target_score ≤ x.score.getD o.name 0 ∧ x.winner = some o ∧
            x.fatigue = st.fatigue ∧ x.possession = st.possession) ∨
          (x.score.getD o.name 0 < sim.target_score ∧ x.winner = st.winner ∧
            x.fatigue = (st.fatigue.addTo o.name (5/10)).addTo d.name (3/10) ∧
            (x.possession = st.possession ∨ x.possession = d)))) ∨
      (ev.kind = "shot_missed" ∧ x.score = st.score ∧ x.winner = st.winner ∧
        x.fatigue = (st.fatigue.addTo o.name (5/10)).addTo d.name (3/10) ∧
        x.possession = d)))

/-- The observable effect of one whole loop iteration on the match state. -/
def PossShape (st x : GState) (sim : Sim) : Prop :=
  x.possession_count = st.possession_count + 1 ∧
  (∃ cev ev : Event, cev.kind = "check_ball" ∧ x.game_log = st.game_log ++ [cev, ev] ∧
    ((ev.kind = "turnover" ∧ x.score = st.score ∧ x.fatigue = st.fatigue ∧
        x.winner = st.winner ∧ x.possession = otherOf sim st.possession) ∨
      (∃ pts : ℕ, (pts = 1 ∨ pts = 2) ∧ ev.kind = "shot_made" ∧
        x.score = st.score.addTo st.possession.name pts ∧
        ((sim.target_score ≤ x.score.getD st.possession.name 0 ∧
            x.winner = some st.possession ∧ x.fatigue = st.fatigue ∧
            x.possession = st.possession) ∨
          (x.score.getD st.possession.name 0 < sim.target_score ∧ x.winner = st.winner ∧
            x.fatigue = (st.fatigue.addTo st.possession.name (5/10)).addTo
              (otherOf sim st.possession).name (3/10) ∧
            (x.possession = st.possession ∨ x.possession = otherOf sim st.possession)))) ∨
      (ev.kind = "shot_missed" ∧ x.score = st.score ∧ x.winner = st.winner ∧
        x.fatigue = (st.fatigue.addTo st.possession.name (5/10)).addTo
          (otherOf sim st.possession).name (3/10) ∧
        x.possession = otherOf sim st.possession)))

/-! Dictionary lemmas. -/

theorem PyDict.get?_set_self {α : Type} (d : PyDict α) (k : String) (v : α) :
    (d.set k v).get? k = some v := by
  induction d with
  | nil => simp [PyDict.set, PyDict.get?]
  | cons hd tl ih =>
    obtain ⟨a, b⟩ := hd
    by_cases hak : a = k <;> simp [PyDict.set, PyDict.get?, hak, ih]

theorem PyDict.get?_set_ne {α : Type} (d : PyDict α) {k k' : String} (v : α)
    (h : k' ≠ k) : (d.set k v).get? k' = d.get? k' := by
  induction d with
  | nil => simp [PyDict.set, PyDict.get?, Ne.symm h]
  | cons hd tl ih =>
    obtain ⟨a, b⟩ := hd
    by_cases hak : a = k
    · subst hak
      simp [PyDict.set, PyDict.get?, Ne.symm h]
    · simp [PyDict.set, PyDict.get?, hak, ih]

theorem PyDict.getD_set_self {α : Type} (d : PyDict α) (k : String) (v dflt : α) :
    (d.set k v).getD k dflt = v := by
  simp [PyDict.getD, PyDict.get?_set_self]

theorem PyDict.getD_set_ne {α : Type} (d : PyDict α) {k k' : String} (v dflt : α)
    (h : k' ≠ k) : (d.set k v).getD k' dflt = d.getD k' dflt := by
  simp [PyDict.getD, PyDict.get?_set_ne _ _ h]

theorem PyDict.getD_addTo_self {α : Type} [Zero α] [Add α] (d : PyDict α)
    (k : String) (v : α) : (d.addTo k v).getD k 0 = d.getD k 0 + v := by
  simp [PyDict.addTo, PyDict.getD_set_self]

theorem PyDict.getD_addTo_ne {α : Type} [Zero α] [Add α] (d : PyDict α)
    {k k' : String} (v : α) (h : k' ≠ k) :
    (d.addTo k v).getD k' 0 = d.getD k' 0 := by
  simp [PyDict.addTo, PyDict.getD_set_ne _ _ _ h]

theorem PyDict.getD_addTo_le {α : Type} [AddCommMonoid α] [PartialOrder α]
    [CovariantClass α α (· + ·) (· ≤ ·)] (d : PyDict α) (k k' : String) {v : α}
    (hv : 0 ≤ v) : d.getD k' 0 ≤ (d.addTo k v).getD k' 0 := by
  by_cases hk : k' = k
  · subst hk
    rw [PyDict.getD_addTo_self]
    exact le_add_of_nonneg_right hv
  · rw [PyDict.getD_addTo_ne _ _ hk]

theorem PyDict.mem_values_set {α : Type} {d : PyDict α} {k : String} {v x : α}
    (hx : x ∈ (d.set k v).values) : x = v ∨ x ∈ d.values := by
  induction d with
  | nil =>
    simp only [PyDict.set, PyDict.values, List.map_cons, List.map_nil,
      List.mem_singleton] at hx
    exact Or.inl hx
  | cons hd tl ih =>
    obtain ⟨a, b⟩ := hd
    by_cases hak : a = k
    · simp only [PyDict.set, if_pos hak] at hx
      simp only [PyDict.values, List.map_cons, List.mem_cons] at hx ⊢
      rcases hx with rfl | hx
      · exact Or.inl rfl
      · exact Or.inr (Or.inr hx)
    · simp only [PyDict.set, if_neg hak] at hx
      simp only [PyDict.values, List.map_cons, List.mem_cons] at hx ⊢
      rcases hx with rfl | hx
      · exact Or.inr (Or.inl rfl)
      · rcases ih hx with h1 | h2
        · exact Or.inl h1
        · exact Or.inr (Or.inr h2)

theorem PyDict.get?_mem_values {α : Type} {d : PyDict α} {k : String} {v : α}
    (h : d.get? k = some v) : v ∈ d.values := by
  induction d with
  | nil => simp [PyDict.get?] at h
  | cons hd tl ih =>
    obtain ⟨a, b⟩ := hd
    by_cases hak : a = k
    · simp only [PyDict.get?, if_pos hak, Option.some.injEq] at h
      simp only [PyDict.values, List.map_cons, List.mem_cons]
      exact Or.inl h.symm
    · simp only [PyDict.get?, if_neg hak] at h
      have hv := ih h
      simp only [PyDict.values, List.map_cons, List.mem_cons]
      simp only [PyDict.values] at hv
      exact Or.inr hv

theorem PyDict.getD_zero_of_values {α : Type} [Zero α] {d : PyDict α}
    (h : ∀ v ∈ d.values, v = 0) (k : String) : d.getD k 0 = 0 := by
  unfold PyDict.getD
  cases hg : d.get? k with
  | none => rfl
  | some v => simpa using h v (PyDict.get?_mem_values hg)

theorem foldl_max_lt {t : ℕ} : ∀ (l : List ℕ) (a : ℕ),
    (l.foldl max a < t ↔ a < t ∧ ∀ v ∈ l, v < t) := by
  intro l
  induction l with
  | nil => simp
  | cons b l ih =>
    intro a
    simp only [List.foldl_cons, ih (max a b), Nat.max_lt, List.mem_cons]
    constructor
    · rintro ⟨⟨ha, hb⟩, hl⟩
      exact ⟨ha, fun v hv => by rcases hv with rfl | hv; exact hb; exact hl v hv⟩
    · rintro ⟨ha, hl⟩
      exact ⟨⟨ha, hl b (Or.inl rfl)⟩, fun v hv => hl v (Or.inr hv)⟩

theorem maxValues_lt {d : PyDict ℕ} {t : ℕ} :
    maxValues d < t ↔ 0 < t ∧ ∀ v ∈ d.values, v < t := by
  simpa [maxValues] using foldl_max_lt d.values 0

theorem madeShot_shape (sim : Sim) (o d : Player) (ty dsc : String) (st : GState) :
    StepShape st (madeShot sim o d ty dsc st) sim o d := by
  have hpts : (if ty = "inside" then (1 : ℕ) else 2) = 1 ∨
      (if ty = "inside" then (1 : ℕ) else 2) = 2 := by
    split_ifs <;> simp
  unfold StepShape madeShot
  simp only [GState.logEvent, GState.addFatigue]
  by_cases hw : sim.target_score ≤
      (st.score.addTo o.name (if ty = "inside" then 1 else 2)).getD o.name 0
  · rw [if_pos hw]
    exact ⟨by trivial, ⟨"shot_made", _⟩, rfl,
      Or.inl ⟨_, hpts, by trivial, by trivial,
        Or.inl ⟨hw, by trivial, by trivial, by trivial⟩⟩⟩
  · rw [if_neg hw]
    by_cases hm : sim.make_it_take_it
    · rw [if_pos hm]
      exact ⟨by trivial, ⟨"shot_made", _⟩, rfl,
        Or.inl ⟨_, hpts, by trivial, by trivial,
          Or.inr ⟨lt_of_not_le hw, by trivial, by trivial, Or.inl (by trivial)⟩⟩⟩
    · rw [if_neg hm]
      exact ⟨by trivial, ⟨"shot_made", _⟩, rfl,
        Or.inl ⟨_, hpts, by trivial, by trivial,
          Or.inr ⟨lt_of_not_le hw, by trivial, by trivial, Or.inr (by trivial)⟩⟩⟩

theorem missedShot_shape (sim : Sim) (o d : Player) (dsc : String) (st : GState) :
    StepShape st (missedShot o d dsc st) sim o d := by
  unfold StepShape missedShot
  simp only [GState.logEvent, GState.addFatigue]
  exact ⟨by trivial, ⟨"shot_missed", _⟩, rfl,
    Or.inr ⟨by trivial, by trivial, by trivial, by trivial, by trivial⟩⟩

theorem StepShape_mono {sim : Sim} {o d : Player} {st stx x : GState}
    (h : StepShape stx x sim o d) (hsc : stx.score = st.score)
    (hfat : stx.fatigue = st.fatigue) (hwin : stx.winner = st.winner)
    (hpos : stx.possession = st.possession)
    (hcnt : stx.possession_count = st.possession_count)
    (hlog : stx.game_log = st.game_log) : StepShape st x sim o d := by
  unfold StepShape at h ⊢
  rw [hsc, hfat, hwin, hpos, hcnt, hlog] at h
  exact h

theorem shotPhase_shape (sim : Sim) (o d : Player) (ff : ℚ) (pos : String)
    (st : GState) : StepShape st (shotPhase sim o d ff pos st) sim o d := by
  unfold shotPhase
  dsimp only
  split_ifs with hs
  · exact StepShape_mono (madeShot_shape sim o d _ _ _) rfl rfl rfl rfl rfl rfl
  · exact StepShape_mono (missedShot_shape sim o d _ _) rfl rfl rfl rfl rfl rfl

theorem stepShape_poss {sim : Sim} {st stx x : GState}
    (h : StepShape stx x sim st.possession (otherOf sim st.possession))
    (hsc : stx.score = st.score) (hfat : stx.fatigue = st.fatigue)
    (hwin : stx.winner = st.winner) (hpos : stx.possession = st.possession)
    (hcnt : stx.possession_count = st.possession_count + 1)
    (hlog : ∃ cev : Event, cev.kind = "check_ball" ∧
      stx.game_log = st.game_log ++ [cev]) : PossShape st x sim := by
  obtain ⟨cev, hck, hl⟩ := hlog
  obtain ⟨h1, ev, hev, hrest⟩ := h
  refine ⟨by rw [h1, hcnt], cev, ev, hck, ?_, ?_⟩
  · rw [hev, hl, List.append_assoc]
    rfl
  · rw [hsc, hfat, hwin, hpos] at hrest
    exact Or.inr hrest

set_option maxHeartbeats 1600000 in
theorem possessionStep_shape {sim : Sim} {st st' : GState}
    (h : possessionStep sim st = .ok st') : PossShape st st' sim := by
  unfold possessionStep at h
  dsimp only at h
  split at h
  · simp only [Except.ok.injEq] at h
    subst h
    refine ⟨rfl,
      ⟨"check_ball", st.possession.name ++ " checks the ball at the top of the key."⟩,
      ⟨"turnover", st.possession.name ++ " loses control of the ball! Turnover to " ++
        (otherOf sim st.possession).name ++ "."⟩, rfl, ?_,
      Or.inl ⟨rfl, rfl, rfl, rfl, rfl⟩⟩
    simp [GState.logEvent, GState.drawRand]
  · split at h
    · exact Except.noConfusion h
    · simp only [Except.ok.injEq] at h
      subst h
      exact stepShape_poss (shotPhase_shape sim _ _ _ _ _) rfl rfl rfl rfl rfl
        ⟨⟨"check_ball", st.possession.name ++ " checks the ball at the top of the key."⟩,
          rfl, rfl⟩

/-! Loop lemmas. -/

theorem getLast?_append_singleton {α : Type} (l : List α) (a : α) :
    (l ++ [a]).getLast? = some a := by
  rw [List.getLast?_append_cons]
  rfl

theorem simLoop_preserve {sim : Sim} (P : GState → Prop)
    (hP : ∀ st st', maxValues st.score < sim.target_score →
      possessionStep sim st = .ok st' → P st → P st') :
    ∀ (fuel : ℕ) (st st' : GState), simLoop sim fuel st = .ok st' → P st → P st' := by
  intro fuel
  induction fuel with
  | zero =>
    intro st st' h hp
    simp only [simLoop, Except.ok.injEq] at h
    rwa [← h]
  | succ fuel ih =>
    intro st st' h hp
    rw [simLoop] at h
    by_cases hg : maxValues st.score < sim.target_score
    · rw [if_pos hg] at h
      cases hstep : possessionStep sim st with
      | error e =>
        rw [hstep] at h
        exact Except.noConfusion h
      | ok st1 =>
        rw [hstep] at h
        dsimp only at h
        by_cases hw : st1.winner.isSome
        · rw [if_pos hw] at h
          simp only [Except.ok.injEq] at h
          rw [← h]
          exact hP st st1 hg hstep hp
        · rw [if_neg hw] at h
          exact ih st1 st' h (hP st st1 hg hstep hp)
    · rw [if_neg hg] at h
      simp only [Except.ok.injEq] at h
      rwa [← h]

theorem simLoop_exit {sim : Sim} : ∀ (fuel : ℕ) (st st' : GState),
    simLoop sim fuel st = .ok st' →
    st'.winner.isSome = true ∨ sim.target_score ≤ maxValues st'.score ∨
      st'.possession_count = st.possession_count + fuel := by
  intro fuel
  induction fuel with
  | zero =>
    intro st st' h
    simp only [simLoop, Except.ok.injEq] at h
    subst h
    exact Or.inr (Or.inr rfl)
  | succ fuel ih =>
    intro st st' h
    rw [simLoop] at h
    by_cases hg : maxValues st.score < sim.target_score
    · rw [if_pos hg] at h
      cases hstep : possessionStep sim st with
      | error e =>
        rw [hstep] at h
        exact Except.noConfusion h
      | ok st1 =>
        rw [hstep] at h
        dsimp only at h
        by_cases hw : st1.winner.isSome
        · rw [if_pos hw] at h
          simp only [Except.ok.injEq] at h
          subst h
          exact Or.inl hw
        · rw [if_neg hw] at h
          rcases ih st1 st' h with h1 | h2 | h3
          · exact Or.inl h1
          · exact Or.inr (Or.inl h2)
          · refine Or.inr (Or.inr ?_)
            rw [h3, (possessionStep_shape hstep).1]
            omega
    · rw [if_neg hg] at h
      simp only [Except.ok.injEq] at h
      subst h
      exact Or.inr (Or.inl (not_lt.mp hg))

theorem simLoop_count {sim : Sim} : ∀ (fuel : ℕ) (st st' : GState),
    simLoop sim fuel st = .ok st' →
    st'.possession_count ≤ st.possession_count + fuel := by
  intro fuel
  induction fuel with
  | zero =>
    intro st st' h
    simp only [simLoop, Except.ok.injEq] at h
    subst h
    exact le_refl _
  | succ fuel ih =>
    intro st st' h
    rw [simLoop] at h
    by_cases hg : maxValues st.score < sim.target_score
    · rw [if_pos hg] at h
      cases hstep : possessionStep sim st with
      | error e =>
        rw [hstep] at h
        exact Except.noConfusion h
      | ok st1 =>
        rw [hstep] at h
        dsimp only at h
        have hc1 : st1.possession_count = st.possession_count + 1 :=
          (possessionStep_shape hstep).1
        by_cases hw : st1.winner.isSome
        · rw [if_pos hw] at h
          simp only [Except.ok.injEq] at h
          subst h
          omega
        · rw [if_neg hw] at h
          have := ih st1 st' h
          omega
    · rw [if_neg hg] at h
      simp only [Except.ok.injEq] at h
      subst h
      omega

/-- The error-free run: when the possession holder always has a 'position'
key, the loop never raises. -/
theorem possessionStep_ok (sim : Sim) (st : GState)
    (h : st.possession.enh.raw.position.isSome) :
    ∃ st', possessionStep sim st = .ok st' := by
  unfold possessionStep
  dsimp only
  split
  · exact ⟨_, rfl⟩
  · cases hp : st.possession.enh.raw.position with
    | none => rw [hp] at h; exact absurd h (by simp)
    | some pos => exact ⟨_, rfl⟩

theorem otherOf_mem (sim : Sim) (p : Player) :
    otherOf sim p = sim.player1 ∨ otherOf sim p = sim.player2 := by
  unfold otherOf
  split_ifs <;> simp

theorem possessionStep_possession_mem {sim : Sim} {st st' : GState}
    (h : possessionStep sim st = .ok st')
    (hst : st.possession = sim.player1 ∨ st.possession = sim.player2) :
    st'.possession = sim.player1 ∨ st'.possession = sim.player2 := by
  obtain ⟨-, cev, ev, -, -, hc⟩ := possessionStep_shape h
  rcases hc with ⟨-, -, -, -, hp⟩ | ⟨pts, -, -, -, hi⟩ | ⟨-, -, -, -, hp⟩
  · rw [hp]; exact otherOf_mem sim st.possession
  · rcases hi with ⟨-, -, -, hp⟩ | ⟨-, -, -, hp | hp⟩
    · rw [hp]; exact hst
    · rw [hp]; exact hst
    · rw [hp]; exact otherOf_mem sim st.possession
  · rw [hp]; exact otherOf_mem sim st.possession

theorem simLoop_ok {sim : Sim}
    (h1 : sim.player1.enh.raw.position.isSome)
    (h2 : sim.player2.enh.raw.position.isSome) :
    ∀ (fuel : ℕ) (st : GState),
      (st.possession = sim.player1 ∨ st.possession = sim.player2) →
      ∃ st', simLoop sim fuel st = .ok st' := by
  intro fuel
  induction fuel with
  | zero => exact fun st _ => ⟨st, rfl⟩
  | succ fuel ih =>
    intro st hmem
    rw [simLoop]
    by_cases hg : maxValues st.score < sim.target_score
    · rw [if_pos hg]
      have hpos : st.possession.enh.raw.position.isSome := by
        rcases hmem with hm | hm <;> rw [hm] <;> assumption
      obtain ⟨st1, hstep⟩ := possessionStep_ok sim st hpos
      rw [hstep]
      dsimp only
      by_cases hw : st1.winner.isSome
      · rw [if_pos hw]
        exact ⟨st1, rfl⟩
      · rw [if_neg hw]
        exact ih st1 (possessionStep_possession_mem hstep hmem)
    · rw [if_neg hg]
      exact ⟨st, rfl⟩

/-! Facts about the freshly initialized state. -/

theorem initState_winner (sim : Sim) (rng : RState) : (initState sim rng).winner = none := rfl

theorem initState_count (sim : Sim) (rng : RState) :
    (initState sim rng).possession_count = 0 := rfl

theorem initState_log (sim : Sim) (rng : RState) :
    ∃ ev : Event, ev.kind = "intro" ∧ (initState sim rng).game_log = [ev] :=
  ⟨_, rfl, rfl⟩

theorem initState_score_values (sim : Sim) (rng : RState) :
    ∀ v ∈ (initState sim rng).score.values, v = 0 := by
  intro v hv
  unfold initState at hv
  dsimp only at hv
  rcases PyDict.mem_values_set hv with rfl | hv2
  · rfl
  · rcases PyDict.mem_values_set hv2 with rfl | hv3
    · rfl
    · simp [PyDict.values, PyDict.empty] at hv3

theorem initState_fatigue_values (sim : Sim) (rng : RState) :
    ∀ v ∈ (initState sim rng).fatigue.values, v = 0 := by
  intro v hv
  unfold initState at hv
  dsimp only at hv
  rcases PyDict.mem_values_set hv with rfl | hv2
  · rfl
  · rcases PyDict.mem_values_set hv2 with rfl | hv3
    · rfl
    · simp [PyDict.values, PyDict.empty] at hv3

theorem initState_maxValues (sim : Sim) (rng : RState) {t : ℕ} (ht : 0 < t) :
    maxValues (initState sim rng).score < t :=
  maxValues_lt.mpr ⟨ht, fun v hv => by rw [initState_score_values sim rng v hv]; exact ht⟩

theorem initState_possession (sim : Sim) (rng : RState) :
    (initState sim rng).possession = sim.player1 ∨
      (initState sim rng).possession = sim.player2 := by
  unfold initState pyChoice
  dsimp only
  have h2 : rng.choice rng.choiceIdx % 2 = 0 ∨ rng.choice rng.choiceIdx % 2 = 1 := by omega
  rcases h2 with h | h <;> rw [List.length_cons, List.length_cons, List.length_nil, h] <;> simp

/-! The two score invariants of the loop: a set winner has reached the target,
and while no winner is set every score is below the target. -/

theorem winnerScore_step {sim : Sim} {st st' : GState}
    (hstep : possessionStep sim st = .ok st')
    (hp : ∀ w : Player, st.winner = some w →
      sim.target_score ≤ st.score.getD w.name 0) :
    ∀ w : Player, st'.winner = some w → sim.target_score ≤ st'.score.getD w.name 0 := by
  obtain ⟨-, cev, ev, -, -, hc⟩ := possessionStep_shape hstep
  rcases hc with ⟨-, hsc, -, hwin, -⟩ | ⟨pts, hpts, -, hsc, hi⟩ | ⟨-, hsc, hwin, -, -⟩
  · intro w hw
    rw [hwin] at hw
    rw [hsc]
    exact hp w hw
  · rcases hi with ⟨hge, hwin, -, -⟩ | ⟨-, hwin, -, -⟩
    · intro w hw
      rw [hwin, Option.some.injEq] at hw
      rw [← hw]
      exact hge
    · intro w hw
      rw [hwin] at hw
      rw [hsc]
      exact le_trans (hp w hw) (PyDict.getD_addTo_le _ _ _ (Nat.zero_le pts))
  · intro w hw
    rw [hwin] at hw
    rw [hsc]
    exact hp w hw

theorem noWinnerBelow_step {sim : Sim} {st st' : GState}
    (hstep : possessionStep sim st = .ok st')
    (hp : st.winner = none → ∀ v ∈ st.score.values, v < sim.target_score) :
    st'.winner = none → ∀ v ∈ st'.score.values, v < sim.target_score := by
  obtain ⟨-, cev, ev, -, -, hc⟩ := possessionStep_shape hstep
  rcases hc with ⟨-, hsc, -, hwin, -⟩ | ⟨pts, hpts, -, hsc, hi⟩ | ⟨-, hsc, hwin, -, -⟩
  · intro hn
    rw [hwin] at hn
    rw [hsc]
    exact hp hn
  · rcases hi with ⟨-, hwin, -, -⟩ | ⟨hlt, hwin, -, -⟩
    · intro hn
      rw [hwin] at hn
      exact absurd hn (by simp)
    · intro hn v hv
      rw [hwin] at hn
      rw [hsc] at hv
      rcases PyDict.mem_values_set hv with rfl | hv2
      · have := hlt
        rw [hsc, PyDict.getD_addTo_self] at this
        exact this
      · exact hp hn v hv2
  · intro hn
    rw [hwin] at hn
    rw [hsc]
    exact hp hn

/-- The run up to the conclusion event: the loop's final state with the one
conclusion event appended, winner, score, fatigue and count unchanged. -/
theorem runGame_spec {sim : Sim} {rng : RState} {st' : GState}
    (h : runGame sim rng = .ok st') :
    ∃ st : GState, simLoop sim 100 (initState sim rng) = .ok st ∧
      st'.score = st.score ∧ st'.winner = st.winner ∧ st'.fatigue = st.fatigue ∧
      st'.possession_count = st.possession_count ∧
      (st.winner = none → st'.game_log = st.game_log ++ [⟨"conclusion",
        "The game reached the maximum number of possessions without a winner."⟩]) ∧
      (∀ w : Player, st.winner = some w → st'.game_log = st.game_log ++ [⟨"conclusion",
        "Game over! " ++ w.name ++ " wins " ++ toString (st.score.getD w.name 0) ++
          " to " ++ toString (st.score.getD (otherOf sim w).name 0) ++ "!"⟩]) := by
  unfold runGame at h
  cases hl : simLoop sim 100 (initState sim rng) with
  | error e =>
    rw [hl] at h
    exact Except.noConfusion h
  | ok st =>
    rw [hl] at h
    dsimp only at h
    cases hwv : st.winner with
    | some w =>
      rw [hwv] at h
      simp only [Except.ok.injEq] at h
      subst h
      refine ⟨st, rfl, rfl, rfl, rfl, rfl, ?_, ?_⟩
      · intro hn
        rw [hwv] at hn
        exact Option.noConfusion hn
      · intro w' hw'
        rw [hwv, Option.some.injEq] at hw'
        subst hw'
        rfl
    | none =>
      rw [hwv] at h
      simp only [Except.ok.injEq] at h
      subst h
      refine ⟨st, rfl, rfl, rfl, rfl, rfl, fun _ => rfl, ?_⟩
      intro w' hw'
      rw [hwv] at hw'
      exact Option.noConfusion hw'

/-- C1: for every match run to completion by simulate_full_game, a set winner
has reached the target score, and a winnerless match is a draw that ran to the
100-possession cap with every score still below the target (requires a
positive target).  The claim's win-by-2 margin is NOT checked by the code; see
the counterexample. -/
theorem win_reaches_target_or_capped_draw (sim : Sim) (rng : RState) (st : GState)
    (ht : 0 < sim.target_score) (h : runGame sim rng = Except.ok st) :
    (∀ w : Player, st.winner = some w → sim.target_score ≤ st.score.getD w.name 0) ∧
    (st.winner = none → st.possession_count = 100 ∧
      maxValues st.score < sim.target_score) := by
  obtain ⟨stf, hloop, hsc, hwin, hfat, hcnt, hnone, hsome⟩ := runGame_spec h
  have hInv := simLoop_preserve
    (P := fun s => (∀ w : Player, s.winner = some w →
        sim.target_score ≤ s.score.getD w.name 0) ∧
      (s.winner = none → ∀ v ∈ s.score.values, v < sim.target_score))
    (fun s s' _ hstep hp => ⟨winnerScore_step hstep hp.1, noWinnerBelow_step hstep hp.2⟩)
    100 _ stf hloop
    ⟨fun w hw => by rw [initState_winner] at hw; exact Option.noConfusion hw,
      fun _ v hv => by rw [initState_score_values sim rng v hv]; exact ht⟩
  constructor
  · intro w hw
    rw [hwin] at hw
    rw [hsc]
    exact hInv.1 w hw
  · intro hn
    rw [hwin] at hn
    have hmax : maxValues stf.score < sim.target_score :=
      maxValues_lt.mpr ⟨ht, hInv.2 hn⟩
    rcases simLoop_exit 100 _ stf hloop with he | he | he
    · rw [hn] at he
      simp at he
    · exact absurd he (not_le.mpr hmax)
    · rw [initState_count] at he
      refine ⟨by rw [hcnt, he], by rw [hsc]; exact hmax⟩

unseal Rat.add Rat.sub Rat.mul Rat.inv in
/-- C1 witness: the target-1 Alice/Bob game ends with a winner who reached the
target. -/
theorem win_reaches_target_witness :
    ∃ st : GState, runGame (simAliceBob 1) rngWin = Except.ok st ∧
      (∀ w : Player, st.winner = some w →
        (simAliceBob 1).target_score ≤ st.score.getD w.name 0) :=
  ⟨stWin, by exact rfl,
    (win_reaches_target_or_capped_draw (simAliceBob 1) rngWin stWin (by decide)
      (by exact rfl)).1⟩

unseal Rat.add Rat.sub Rat.mul Rat.inv in
/-- C1 counterexample: with target score 1 Alice wins 1 to 0 — the winner's
margin over the loser is 1, not the claimed "at least 2" (there is no win-by-2
check in simulate_full_game). -/
theorem win_by_two_counterexample :
    runWinner (simAliceBob 1) rngWin = .ok (some "Alice") ∧
    runScore (simAliceBob 1) rngWin "Alice" = .ok 1 ∧
    runScore (simAliceBob 1) rngWin "Bob" = .ok 0 ∧
    (simAliceBob 1).target_score = 1 ∧ ¬(0 + 2 ≤ 1) :=
  ⟨by decide, by decide, by decide, rfl, by omega⟩

/-- C8: simulate_full_game always terminates with at most 100 possessions; a
winnerless run ends in the dedicated no-winner draw conclusion, reaching the
cap with every score below the target forces that draw, and a true win ends in
the distinct "Game over!" conclusion. -/
theorem cap_produces_draw_conclusion (sim : Sim) (rng : RState) (st : GState)
    (h : runGame sim rng = Except.ok st) :
    st.possession_count ≤ 100 ∧
    (st.winner = none → st.game_log.getLast? = some ⟨"conclusion",
      "The game reached the maximum number of possessions without a winner."⟩) ∧
    (st.possession_count = 100 → maxValues st.score < sim.target_score →
      st.winner = none) ∧
    (∀ w : Player, st.winner = some w → st.game_log.getLast? = some ⟨"conclusion",
      "Game over! " ++ w.name ++ " wins " ++ toString (st.score.getD w.name 0) ++
        " to " ++ toString (st.score.getD (otherOf sim w).name 0) ++ "!"⟩) := by
  obtain ⟨stf, hloop, hsc, hwin, hfat, hcnt, hnone, hsome⟩ := runGame_spec h
  have hWS := simLoop_preserve
    (P := fun s => ∀ w : Player, s.winner = some w →
      sim.target_score ≤ s.score.getD w.name 0)
    (fun s s' _ hstep hp => winnerScore_step hstep hp)
    100 _ stf hloop
    (fun w hw => by rw [initState_winner] at hw; exact Option.noConfusion hw)
  refine ⟨?_, ?_, ?_, ?_⟩
  · have := simLoop_count 100 _ stf hloop
    rw [initState_count] at this
    omega
  · intro hn
    rw [hwin] at hn
    rw [hnone hn]
    exact getLast?_append_singleton _ _
  · intro h100 hmax
    cases hwv : st.winner with
    | none => rfl
    | some w =>
      exfalso
      rw [hwin] at hwv
      have hge := hWS w hwv
      rw [← hsc] at hge
      rcases maxValues_lt.mp hmax with ⟨htpos, hvals⟩
      unfold PyDict.getD at hge
      cases hg : st.score.get? w.name with
      | none =>
        rw [hg] at hge
        simp only [Option.getD_none] at hge
        omega
      | some v =>
        rw [hg] at hge
        simp only [Option.getD_some] at hge
        exact absurd (hvals v (PyDict.get?_mem_values hg)) (not_lt.mpr hge)
  · intro w hw
    rw [hwin] at hw
    rw [hsome w hw, hsc]
    exact getLast?_append_singleton _ _

unseal Rat.add Rat.sub Rat.mul Rat.inv in
/-- C8 witness: a concrete completed game, within the cap, with the "Game
over!" conclusion. -/
theorem cap_draw_witness :
    ∃ st : GState, runGame (simAliceBob 1) rngWin = Except.ok st ∧
      st.possession_count ≤ 100 :=
  ⟨stWin, by exact rfl,
    (cap_produces_draw_conclusion (simAliceBob 1) rngWin stWin (by exact rfl)).1⟩

theorem getLast?_append_pair {α : Type} (l : List α) (a b : α) :
    (l ++ [a, b]).getLast? = some b := by
  rw [List.getLast?_append_cons]
  rfl

/-- The last event a successful possession step leaves in the log. -/
theorem possessionStep_lastEvent {st st' : GState} {cev ev : Event}
    (hlog : st'.game_log = st.game_log ++ [cev, ev]) :
    st'.game_log.getLast? = some ev := by
  rw [hlog]
  exact getLast?_append_pair _ _ _

/-- C2: in simulate_full_game no rebound is ever contested — whenever the
possession's last event is a missed shot, the defensive player receives the
next possession unconditionally (the contested-rebound formula lives only in
the never-called _simulate_possession). -/
theorem missed_shot_flips_possession (sim : Sim) (st st' : GState)
    (h : possessionStep sim st = .ok st')
    (hm : st'.game_log.getLast?.map Event.kind = some "shot_missed") :
    st'.possession = otherOf sim st.possession ∧ st'.score = st.score ∧
      st'.winner = st.winner := by
  obtain ⟨-, cev, ev, hck, hlog, hc⟩ := possessionStep_shape h
  rw [possessionStep_lastEvent hlog] at hm
  simp only [Option.map_some', Option.some.injEq] at hm
  rcases hc with ⟨hk, -, -, -, -⟩ | ⟨pts, -, hk, -, -⟩ | ⟨hk, hsc, hwin, -, hp⟩
  · rw [hk] at hm
    exact absurd hm (by decide)
  · rw [hk] at hm
    exact absurd hm (by decide)
  · exact ⟨hp, hsc, hwin⟩

unseal Rat.add Rat.sub Rat.mul Rat.inv in
/-- C2 witness: a concrete missed shot, after which Bob (the defender) holds
the ball. -/
theorem missed_shot_flips_possession_witness :
    ∃ st' : GState, possessionStep (simAliceBob 11) stMissBase = .ok st' ∧
      (st'.possession = otherOf (simAliceBob 11) stMissBase.possession ∧
        st'.score = stMissBase.score ∧ st'.winner = stMissBase.winner) :=
  ⟨stMiss, by exact rfl,
    missed_shot_flips_possession (simAliceBob 11) stMissBase stMiss (by exact rfl)
      (by decide)⟩

unseal Rat.add Rat.sub Rat.mul Rat.inv in
/-- C2 counterexample: on the same missed shot the code hands Bob the ball,
while the claimed contested rebound (offensive-rebound probability 0.25,
contest draw 0) would leave it with Alice. -/
theorem rebound_contest_counterexample :
    stepLastKind (simAliceBob 11) stMissBase = .ok (some "shot_missed") ∧
    stepPossessionName (simAliceBob 11) stMissBase = .ok "Bob" ∧
    stepPossessionNameClaimed (simAliceBob 11) stMissBase = .ok "Alice" ∧
    off_rebound_chance (playerOf rawAlice) (playerOf rawBob) "inside" = 25/100 :=
  ⟨by decide, by decide, by decide, by decide⟩

/-- C3: the in-loop shot-type selection uses position- and 3P%-based odds (0.7
base, 0.5 for PG/SG/SF, minus 0.1 above 35%) — the shot is outside exactly
when the draw reaches the odds, and the odds take only the four values 0.4,
0.5, 0.6, 0.7; the derived three_point_tendency is not consulted. -/
theorem shot_type_from_position_odds (pos : String) (tp r : ℚ) :
    (shotTypeSel (shotTypeOddsOf pos tp) r = "outside" ↔ shotTypeOddsOf pos tp ≤ r) ∧
    (shotTypeOddsOf pos tp = 4/10 ∨ shotTypeOddsOf pos tp = 5/10 ∨
      shotTypeOddsOf pos tp = 6/10 ∨ shotTypeOddsOf pos tp = 7/10) := by
  constructor
  · unfold shotTypeSel
    by_cases hr : r < shotTypeOddsOf pos tp
    · rw [if_pos hr]
      constructor
      · intro he
        exact absurd he (by decide)
      · intro hle
        exact absurd hr (not_lt.mpr hle)
    · rw [if_neg hr]
      simp [not_lt.mp hr]
  · unfold shotTypeOddsOf
    dsimp only
    split_ifs <;> norm_num

unseal Rat.add Rat.sub Rat.mul Rat.inv in
/-- C3 counterexample: Carl (a center at 3P% 40) has three_point_tendency 0.6,
so the claim makes the draw 1/2 an outside shot — the code takes an inside
shot (in-loop odds 0.6) and awards a single point for it. -/
theorem shot_type_tendency_counterexample :
    (playerOf rawCarl).enh.three_point_tendency = 6/10 ∧
    ((1 : ℚ)/2) < 6/10 ∧
    shot_type_claimed (playerOf rawCarl) (1/2) = "outside" ∧
    shotTypeSel (shotTypeOddsOf "C" ((playerOf rawCarl).enh.raw.tp_pct.getD 30))
      (1/2) = "inside" ∧
    stepScore simCarlBob (initState simCarlBob rngCarl) "Carl" = .ok 1 ∧
    stepLastKind simCarlBob (initState simCarlBob rngCarl) = .ok (some "shot_made") :=
  ⟨by decide, by decide, by decide, by decide, by decide, by decide⟩

theorem possessionStep_fatigue_mono {sim : Sim} {st st' : GState}
    (h : possessionStep sim st = .ok st') (k : String) :
    st.fatigue.getD k 0 ≤ st'.fatigue.getD k 0 := by
  obtain ⟨-, cev, ev, -, -, hc⟩ := possessionStep_shape h
  have hadd : ∀ (f : PyDict ℚ) (o d : String),
      f.getD k 0 ≤ ((f.addTo o (5/10)).addTo d (3/10)).getD k 0 := fun f o d =>
    le_trans (PyDict.getD_addTo_le f o k (by norm_num))
      (PyDict.getD_addTo_le _ d k (by norm_num))
  rcases hc with ⟨-, -, hfat, -, -⟩ | ⟨pts, -, -, -, hi⟩ | ⟨-, -, -, hfat, -⟩
  · rw [hfat]
  · rcases hi with ⟨-, -, hfat, -⟩ | ⟨-, -, hfat, -⟩
    · rw [hfat]
    · rw [hfat]
      exact hadd _ _ _
  · rw [hfat]
    exact hadd _ _ _

/-- C4: fatigue accounting as the code actually does it — non-decreasing
throughout and non-negative for the whole match, but the +0.5/+0.3 increments
happen only on possessions that end in a shot attempt that does not win the
game: a turnover possession (continue) and the winning possession (break)
leave fatigue untouched. -/
theorem fatigue_update_cases :
    (∀ (sim : Sim) (st st' : GState), possessionStep sim st = .ok st' →
      (∀ k : String, st.fatigue.getD k 0 ≤ st'.fatigue.getD k 0) ∧
      (st'.game_log.getLast?.map Event.kind = some "turnover" →
        st'.fatigue = st.fatigue) ∧
      (st.winner = none → st'.winner ≠ none → st'.fatigue = st.fatigue) ∧
      ((st'.game_log.getLast?.map Event.kind = some "shot_made" ∨
          st'.game_log.getLast?.map Event.kind = some "shot_missed") →
        st.winner = none → st'.winner = st.winner →
        st.possession.name ≠ (otherOf sim st.possession).name →
        st'.fatigue.getD st.possession.name 0 =
            st.fatigue.getD st.possession.name 0 + 5/10 ∧
          st'.fatigue.getD (otherOf sim st.possession).name 0 =
            st.fatigue.getD (otherOf sim st.possession).name 0 + 3/10)) ∧
    (∀ (sim : Sim) (rng : RState) (st : GState), runGame sim rng = .ok st →
      ∀ k : String, 0 ≤ st.fatigue.getD k 0) := by
  constructor
  · intro sim st st' h
    obtain ⟨-, cev, ev, hck, hlog, hc⟩ := possessionStep_shape h
    have hlast := possessionStep_lastEvent hlog
    have hincr : ∀ {f : PyDict ℚ},
        f = (st.fatigue.addTo st.possession.name (5/10)).addTo
          (otherOf sim st.possession).name (3/10) →
        st.possession.name ≠ (otherOf sim st.possession).name →
        f.getD st.possession.name 0 = st.fatigue.getD st.possession.name 0 + 5/10 ∧
        f.getD (otherOf sim st.possession).name 0 =
          st.fatigue.getD (otherOf sim st.possession).name 0 + 3/10 := by
      intro f hf hne
      subst hf
      constructor
      · rw [PyDict.getD_addTo_ne _ _ hne, PyDict.getD_addTo_self]
      · rw [PyDict.getD_addTo_self, PyDict.getD_addTo_ne _ _ (Ne.symm hne)]
    refine ⟨possessionStep_fatigue_mono h, ?_, ?_, ?_⟩
    · intro hturn
      rw [hlast] at hturn
      simp only [Option.map_some', Option.some.injEq] at hturn
      rcases hc with ⟨-, -, hfat, -, -⟩ | ⟨pts, -, hk, -, -⟩ | ⟨hk, -, -, -, -⟩
      · exact hfat
      · rw [hk] at hturn
        exact absurd hturn (by decide)
      · rw [hk] at hturn
        exact absurd hturn (by decide)
    · intro hn hnn
      rcases hc with ⟨-, -, hfat, hwin, -⟩ | ⟨pts, -, -, -, hi⟩ | ⟨-, -, hwin, hfat, -⟩
      · exact hfat
      · rcases hi with ⟨-, -, hfat, -⟩ | ⟨-, hwin, -, -⟩
        · exact hfat
        · rw [hwin, hn] at hnn
          exact absurd rfl hnn
      · rw [hwin, hn] at hnn
        exact absurd rfl hnn
    · intro hshot hn hww hne
      rcases hc with ⟨hk, -, -, -, -⟩ | ⟨pts, -, hk, -, hi⟩ | ⟨hk, -, -, hfat, -⟩
      · rw [hlast] at hshot
        simp only [Option.map_some', Option.some.injEq] at hshot
        rcases hshot with hs | hs <;> rw [hk] at hs <;> exact absurd hs (by decide)
      · rcases hi with ⟨-, hwin, -, -⟩ | ⟨-, -, hfat, -⟩
        · rw [hwin, hn] at hww
          exact absurd hww (by simp)
        · exact hincr hfat hne
      · exact hincr hfat hne
  · intro sim rng st h k
    obtain ⟨stf, hloop, -, -, hfat, -, -, -⟩ := runGame_spec h
    have hInv := simLoop_preserve
      (P := fun s => ∀ k : String, 0 ≤ s.fatigue.getD k 0)
      (fun s s' _ hstep hp k =>
        le_trans (hp k) (possessionStep_fatigue_mono hstep k))
      100 _ stf hloop
      (fun k => le_of_eq
        (PyDict.getD_zero_of_values (initState_fatigue_values sim rng) k).symm)
    rw [hfat]
    exact hInv k

unseal Rat.add Rat.sub Rat.mul Rat.inv in
/-- C4 witness: on a concrete possession ending in a missed shot, fatigue is
non-decreasing for every name. -/
theorem fatigue_update_cases_witness :
    ∃ st' : GState, possessionStep (simAliceBob 11) stMissBase = .ok st' ∧
      ∀ k : String, stMissBase.fatigue.getD k 0 ≤ st'.fatigue.getD k 0 :=
  ⟨stMiss, by exact rfl,
    ((fatigue_update_cases).1 (simAliceBob 11) stMissBase stMiss (by exact rfl)).1⟩

unseal Rat.add Rat.sub Rat.mul Rat.inv in
/-- C4 counterexample: a target-1 game of two possessions (a turnover, then the
winning shot) ends with both fatigue entries still 0 — not the claimed +0.5
offense / +0.3 defense on every possession regardless of outcome. -/
theorem fatigue_turnover_counterexample :
    (runGame (simAliceBob 1) rngTurnover).map
        (fun st => (st.possession_count, st.fatigue, st.winner.map Player.name)) =
      .ok (2, [("Alice", 0), ("Bob", 0)], some "Bob") ∧
    (runGame (simAliceBob 1) rngTurnover).map (fun st => st.game_log.map Event.kind) =
      .ok ["intro", "check_ball", "turnover", "check_ball", "shot_made", "conclusion"] :=
  ⟨by decide, by decide⟩

unseal Rat.add Rat.sub Rat.mul Rat.inv in
/-- C5 (code bug): match state is keyed by player display name, not by slot.
With two distinct profiles both named "Zed" the score dict has a single shared
entry, Zed-1's winning point is also reported as Zed-2's score, and the
conclusion reads "wins 1 to 1". -/
theorem duplicate_name_score_collision :
    rawZed1 ≠ rawZed2 ∧
    (simulate_game rawZed1 rawZed2 1 true rngWin).map
        (fun r => (r.final_score, r.game_log.getLast?, r.winner)) =
      .ok ([("Zed", 1)],
        some ⟨"conclusion", "Game over! Zed wins 1 to 1!"⟩, some "Zed") :=
  ⟨by decide, by decide⟩

theorem enhance_raw (p : RawPlayer) : (enhance_player_data p).raw = p := rfl

theorem calculate_derived_stats_ok {e : Enhanced} {hgt : ℤ}
    (hph : parseHeight (e.raw.height.getD "6'0\"") = some hgt) :
    ∃ q : Player, calculate_derived_stats e = .ok q ∧
      q.enh.raw.position = e.raw.position ∧ q.height_inches = hgt := by
  unfold calculate_derived_stats
  rw [hph]
  exact ⟨_, rfl, rfl, rfl⟩

theorem calculate_derived_stats_error {e : Enhanced}
    (hph : parseHeight (e.raw.height.getD "6'0\"") = none) :
    calculate_derived_stats e = .error "ValueError: malformed height string" := by
  unfold calculate_derived_stats
  rw [hph]

theorem runGame_ok {sim : Sim} (h1 : sim.player1.enh.raw.position.isSome = true)
    (h2 : sim.player2.enh.raw.position.isSome = true) (rng : RState) :
    ∃ st : GState, runGame sim rng = .ok st := by
  obtain ⟨st, hst⟩ := simLoop_ok h1 h2 100 (initState sim rng)
    (initState_possession sim rng)
  unfold runGame
  rw [hst]
  dsimp only
  cases st.winner <;> exact ⟨_, rfl⟩

/-- C6: construction substitutes a default for every absent optional stat and
never raises, and simulation completes — provided the profiles carry a
position (line 395 indexes the position key directly, so a profile without one
raises KeyError during the game, not at construction) and any present height
string parses. -/
theorem defaults_complete_except_position (p1 p2 : RawPlayer) (t : ℕ) (m : Bool)
    (rng : RState) (hp1 : p1.position.isSome = true) (hp2 : p2.position.isSome = true)
    (hh1 : (parseHeight (p1.height.getD "6'0\"")).isSome = true)
    (hh2 : (parseHeight (p2.height.getD "6'0\"")).isSome = true) :
    ∃ sim : Sim, mkSimulator p1 p2 t m = Except.ok sim ∧
      ∃ r : GameResult, simulate_full_game sim rng = Except.ok r := by
  obtain ⟨g1, hg1⟩ := Option.isSome_iff_exists.mp hh1
  obtain ⟨g2, hg2⟩ := Option.isSome_iff_exists.mp hh2
  obtain ⟨q1, hq1, hq1pos, -⟩ := calculate_derived_stats_ok (e := enhance_player_data p1) hg1
  obtain ⟨q2, hq2, hq2pos, -⟩ := calculate_derived_stats_ok (e := enhance_player_data p2) hg2
  have hsim : mkSimulator p1 p2 t m = Except.ok ⟨q1, q2, t, m⟩ := by
    unfold mkSimulator
    rw [hq1, hq2]
  refine ⟨⟨q1, q2, t, m⟩, hsim, ?_⟩
  have hpos1 : (Sim.mk q1 q2 t m).player1.enh.raw.position.isSome = true := by
    rw [show (Sim.mk q1 q2 t m).player1 = q1 from rfl, hq1pos]
    exact hp1
  have hpos2 : (Sim.mk q1 q2 t m).player2.enh.raw.position.isSome = true := by
    rw [show (Sim.mk q1 q2 t m).player2 = q2 from rfl, hq2pos]
    exact hp2
  obtain ⟨st, hst⟩ := runGame_ok hpos1 hpos2 rng
  unfold simulate_full_game
  rw [hst]
  exact ⟨_, rfl⟩

unseal Rat.add Rat.sub Rat.mul Rat.inv in
/-- C6 witness: two profiles supplying only name and position construct and
complete a match. -/
theorem defaults_complete_witness :
    ∃ sim : Sim, mkSimulator rawPat rawQuinn 11 true = Except.ok sim ∧
      ∃ r : GameResult, simulate_full_game sim rngWin = Except.ok r :=
  defaults_complete_except_position rawPat rawQuinn 11 true rngWin
    (by decide) (by decide) (by decide) (by decide)

unseal Rat.add Rat.sub Rat.mul Rat.inv in
/-- C6 counterexample: a profile with only a name (no position) passes
construction but simulate_full_game raises KeyError at shot-type selection, so
"any or all optional attributes absent" does not complete. -/
theorem missing_position_counterexample :
    (mkSimulator rawAnn rawBob 11 true).isOk = true ∧
    simulate_game rawAnn rawBob 11 true (listRng [1/2]) =
      .error "KeyError: 'position'" :=
  ⟨by decide, by decide⟩

/-- C7: enhance_player_data is a pure function of its argument that carries the
raw profile over unchanged (Python copies the dict), and the derived fields
equal the reference formulas with the documented defaults. -/
theorem enhance_formulas_correct (p : RawPlayer) :
    (enhance_player_data p).scoring_efficiency =
      (5/10) * p.fg_pct.getD 45 + (3/10) * p.tp_pct.getD 33 +
        (2/10) * p.ft_pct.getD 75 ∧
    (enhance_player_data p).usage_rate =
      min 100 (2 * p.points.getD 10 + (15/10) * p.assists.getD 3) ∧
    (enhance_player_data p).stamina = 9/10 + (p.mpg.getD 25 / 40) * (2/10) ∧
    (enhance_player_data p).clutch_rating =
      ((6/10) * p.ft_pct.getD 75 + (4/10) * p.ts_pct.getD 55) / 100 ∧
    (enhance_player_data p).three_point_tendency =
      (if p.fg_pct.getD 45 - p.tp_pct.getD 33 < 8 then 6/10
        else if p.fg_pct.getD 45 - p.tp_pct.getD 33 < 15 then 4/10 else 2/10) ∧
    (enhance_player_data p).raw = p := by
  unfold enhance_player_data
  refine ⟨by ring, ?_, by ring, by ring, rfl, rfl⟩
  dsimp only
  rw [mul_comm (p.points.getD 10) 2, mul_comm (p.assists.getD 3) (15/10)]

/-- C9: a height string that does not split into a foot and an inch component
fails BasketballSimulator construction (before any possession is simulated),
"six foot one" being such a string; a profile with no height key does not fail
— the default 6'0" gives 72 inches. -/
theorem malformed_height_fails_construction :
    (∀ (p1 p2 : RawPlayer) (t : ℕ) (m : Bool),
      parseHeight (p1.height.getD "6'0\"") = none →
      mkSimulator p1 p2 t m = Except.error "ValueError: malformed height string") ∧
    parseHeight "six foot one" = none ∧
    (∀ (p1 p2 : RawPlayer) (t : ℕ) (m : Bool),
      p1.height = none → p2.height = none →
      ∃ sim : Sim, mkSimulator p1 p2 t m = Except.ok sim ∧
        sim.player1.height_inches = 72 ∧ sim.player2.height_inches = 72) := by
  refine ⟨?_, by decide, ?_⟩
  · intro p1 p2 t m hph
    unfold mkSimulator
    rw [calculate_derived_stats_error (e := enhance_player_data p1) hph]
  · intro p1 p2 t m hh1 hh2
    have hp1 : parseHeight ((enhance_player_data p1).raw.height.getD "6'0\"") = some 72 := by
      rw [enhance_raw, hh1]
      decide
    have hp2 : parseHeight ((enhance_player_data p2).raw.height.getD "6'0\"") = some 72 := by
      rw [enhance_raw, hh2]
      decide
    obtain ⟨q1, hq1, -, hi1⟩ := calculate_derived_stats_ok hp1
    obtain ⟨q2, hq2, -, hi2⟩ := calculate_derived_stats_ok hp2
    refine ⟨⟨q1, q2, t, m⟩, ?_, hi1, hi2⟩
    unfold mkSimulator
    rw [hq1, hq2]

/-- C9 witness: the malformed height "six foot one" aborts construction, while
two height-less profiles construct at the default 72 inches. -/
theorem malformed_height_witness :
    mkSimulator rawSam rawBob 11 true =
      Except.error "ValueError: malformed height string" ∧
    (∃ sim : Sim, mkSimulator rawAnn rawAnn 11 true = Except.ok sim ∧
      sim.player1.height_inches = 72 ∧ sim.player2.height_inches = 72) :=
  ⟨malformed_height_fails_construction.1 rawSam rawBob 11 true (by decide),
    malformed_height_fails_construction.2.2 rawAnn rawAnn 11 true rfl rfl⟩

theorem runGame_kinds {sim : Sim} {rng : RState} {st : GState}
    (h : runGame sim rng = .ok st) :
    ∀ e ∈ st.game_log, e.kind ∈ eventKinds := by
  obtain ⟨stf, hloop, -, -, -, -, hnone, hsome⟩ := runGame_spec h
  have hInv := simLoop_preserve
    (P := fun s => ∀ e ∈ s.game_log, e.kind ∈ eventKinds)
    (fun s s' _ hstep hp e he => by
      obtain ⟨-, cev, ev, hck, hlog, hc⟩ := possessionStep_shape hstep
      rw [hlog] at he
      rcases List.mem_append.mp he with he | he
      · exact hp e he
      · simp only [List.mem_cons, List.not_mem_nil, or_false] at he
        rcases he with rfl | rfl
        · rw [hck]
          decide
        · rcases hc with ⟨hk, -⟩ | ⟨pts, -, hk, -⟩ | ⟨hk, -⟩ <;> rw [hk] <;> decide)
    100 _ stf hloop
    (by
      obtain ⟨iv, hik, hil⟩ := initState_log sim rng
      rw [hil]
      intro e he
      rw [List.mem_singleton] at he
      rw [he, hik]
      decide)
  intro e he
  cases hwv : stf.winner with
  | none =>
    rw [hnone hwv] at he
    rcases List.mem_append.mp he with he | he
    · exact hInv e he
    · rw [List.mem_singleton] at he
      rw [he]
      simp [eventKinds]
  | some w =>
    rw [hsome w hwv] at he
    rcases List.mem_append.mp he with he | he
    · exact hInv e he
    · rw [List.mem_singleton] at he
      rw [he]
      simp [eventKinds]

/-- C10: every event the public simulate_game path logs has one of the six
kinds intro, check_ball, turnover, shot_made, shot_missed, conclusion; in
particular no 'block' and no 'rebound' event is ever emitted (the
_simulate_possession routine holding that logic is never invoked). -/
theorem game_log_kinds_closed (p1 p2 : RawPlayer) (t : ℕ) (m : Bool)
    (rng : RState) (r : GameResult)
    (h : simulate_game p1 p2 t m rng = Except.ok r) :
    ∀ e ∈ r.game_log, e.kind ∈ eventKinds ∧ e.kind ≠ "block" ∧ e.kind ≠ "rebound" := by
  unfold simulate_game at h
  cases hmk : mkSimulator p1 p2 t m with
  | error e =>
    rw [hmk] at h
    exact Except.noConfusion h
  | ok sim =>
    rw [hmk] at h
    dsimp only at h
    unfold simulate_full_game at h
    cases hrun : runGame sim rng with
    | error e =>
      rw [hrun] at h
      exact Except.noConfusion h
    | ok st =>
      rw [hrun] at h
      dsimp only at h
      simp only [Except.ok.injEq] at h
      subst h
      intro e he
      have hk := runGame_kinds hrun e he
      refine ⟨hk, ?_, ?_⟩ <;>
        · simp only [eventKinds, List.mem_cons, List.not_mem_nil, or_false] at hk
          rcases hk with hk | hk | hk | hk | hk | hk <;> rw [hk] <;> decide

unseal Rat.add Rat.sub Rat.mul Rat.inv in
/-- C10 witness: a concrete completed simulate_game run whose log holds only
the six event kinds. -/
theorem game_log_kinds_witness :
    ∃ r : GameResult, simulate_game rawAlice rawBob 1 true rngWin = Except.ok r ∧
      ∀ e ∈ r.game_log, e.kind ∈ eventKinds ∧ e.kind ≠ "block" ∧ e.kind ≠ "rebound" :=
  ⟨resultWin, by exact rfl,
    game_log_kinds_closed rawAlice rawBob 1 true rngWin resultWin (by exact rfl)⟩

end BBall
